import Mathlib

/-!
Verification of the core retrieval logic of the Swiss Unihockey Streamlit
dashboard (`src/streamlit_app.py`).

The Python source is shallowly embedded: JSON payloads become the inductive
type `JVal`; Python dictionary/list accesses that can raise become functions
into `Except PyErr`; the upstream HTTP API becomes an explicit environment
(`Env`) mapping a request (URL and query parameters) to the JSON value that
the HTTP layer hands back; the retrieval functions additionally record the
list of requests they issue so that statements about which endpoints are
contacted can be made.  Machine-level concerns (timeouts, SSL, sleeping,
Streamlit caching) are abstracted away: they do not affect the values or the
control flow that the claims are about.
-/

namespace FloorballDashboard

/-- JSON-like values, the payloads exchanged with the upstream API. -/
inductive JVal where
  | null
  | bool (b : Bool)
  | num (n : Int)
  | str (s : String)
  | arr (elems : List JVal)
  | obj (fields : List (String × JVal))

/-- Python truthiness of a JSON value (`if x:`). -/
def JVal.truthy : JVal → Bool
  | .null => false
  | .bool b => b
  | .num n => n != 0
  | .str s => s != ""
  | .arr l => !l.isEmpty
  | .obj l => !l.isEmpty

/-- Python `==` restricted to hashable JSON scalars.  The program only ever
compares values that were accepted as dictionary keys (`setdefault` would have
raised `TypeError` on a list or dict), so scalar equality is the equality the
running program uses; two values of different scalar shapes compare unequal. -/
def JVal.scalarEq : JVal → JVal → Bool
  | .null, .null => true
  | .bool a, .bool b => a == b
  | .num a, .num b => a == b
  | .str a, .str b => a == b
  | _, _ => false

/-- Errors a Python expression of the program can raise. -/
inductive PyErr where
  | attrError
  | typeError
  | keyError
  | indexError
deriving DecidableEq

/-- Python `d.get(k, dflt)`: total on dictionaries, raises `AttributeError`
on every other receiver. -/
def pyGet (d : JVal) (k : String) (dflt : JVal) : Except PyErr JVal :=
  match d with
  | .obj fields => .ok ((fields.lookup k).getD dflt)
  | _ => .error .attrError

/-- Python `d.get(k, dflt)` on a receiver that is already known to be a
dictionary (the total special case of `pyGet`; on non-dictionaries it returns
the default, a case the program never reaches when this helper is used). -/
def dictGet (d : JVal) (k : String) (dflt : JVal) : JVal :=
  match d with
  | .obj fields => (fields.lookup k).getD dflt
  | _ => dflt

/-- Python `len(x)` for the container shapes JSON can carry. -/
def pyLen : JVal → Except PyErr Nat
  | .arr l => .ok l.length
  | .str s => .ok s.length
  | .obj l => .ok l.length
  | _ => .error .typeError

/-- Python `x[i]` for a non-negative literal index: lists index their
elements, strings their characters, dictionaries raise `KeyError` (their keys
are strings, never the integer `i`), everything else `TypeError`. -/
def pyIndexNat (x : JVal) (i : Nat) : Except PyErr JVal :=
  match x with
  | .arr l =>
    match l.get? i with
    | some v => .ok v
    | none => .error .indexError
  | .str s =>
    match s.data.get? i with
    | some c => .ok (.str (String.mk [c]))
    | none => .error .indexError
  | .obj _ => .error .keyError
  | _ => .error .typeError

/-- Python `for x in c`: lists yield elements, strings their characters,
dictionaries their keys; other values raise `TypeError`. -/
def pyIter : JVal → Except PyErr (List JVal)
  | .arr l => .ok l
  | .str s => .ok (s.data.map (fun c => .str (String.mk [c])))
  | .obj fields => .ok (fields.map (fun p => .str p.1))
  | _ => .error .typeError

/-- Python `a or b`. -/
def pyOr (a b : JVal) : JVal := if a.truthy then a else b

/-- Python `str(x)` as used by the program (f-strings over scalar fields and
`str(league)`/`str(gclass)` over numeric identifiers).  Containers are given
a simple canonical rendering; no claim depends on their exact text. -/
def pyStr : JVal → String
  | .null => "None"
  | .bool true => "True"
  | .bool false => "False"
  | .num n => toString n
  | .str s => s
  | .arr _ => "[...]"
  | .obj _ => "\x7b...\x7d"

/-- ASCII lower-casing, character by character (Python `str.lower` on the
identifiers this program handles). -/
def strLower (s : String) : String := String.mk (s.data.map Char.toLower)

/-- Python `s.lower()`: total on strings, `AttributeError` otherwise. -/
def pyLower : JVal → Except PyErr String
  | .str s => .ok (strLower s)
  | _ => .error .attrError

/-- Whether `c :: rest` starts with `needle`. -/
def charsPrefixOf : List Char → List Char → Bool
  | [], _ => true
  | _ :: _, [] => false
  | a :: as, b :: bs => a == b && charsPrefixOf as bs

/-- Whether `needle` occurs contiguously in `hay`. -/
def charsInfixOf (needle : List Char) : List Char → Bool
  | [] => charsPrefixOf needle []
  | c :: rest => charsPrefixOf needle (c :: rest) || charsInfixOf needle rest

/-- Python `needle in hay` for strings (substring containment). -/
def strContains (hay needle : String) : Bool :=
  charsInfixOf needle.data hay.data

/-- Hashability of a JSON value as a Python dictionary key. -/
def JVal.hashable : JVal → Bool
  | .arr _ => false
  | .obj _ => false
  | _ => true

-- ---------------------------------------------------------------------------
-- safe_get (src/streamlit_app.py lines 48-55)
-- ---------------------------------------------------------------------------

/-- Source `safe_get(d, path, default)`: walk `path` through nested dictionaries,
returning `default` the moment the current value is not a dictionary or the
key is absent.  A total function: it can raise nothing. -/
def safe_get (d : JVal) (path : List String) (default : JVal) : JVal :=
  match path with
  | [] => d
  | p :: ps =>
    match d with
    | .obj fields =>
      match fields.lookup p with
      | some v => safe_get v ps default
      | none => default
    | _ => default

/-- Manual successive indexing (`d[p1][p2]...`), `none` as soon as a segment
is missing or the current value is not a dictionary.  This is the
specification-side description that `safe_get` is compared against. -/
def manualIndex (d : JVal) (path : List String) : Option JVal :=
  match path with
  | [] => some d
  | p :: ps =>
    match d with
    | .obj fields =>
      match fields.lookup p with
      | some v => manualIndex v ps
      | none => none
    | _ => none

/-- C5: for every nested mapping, key path and default, `safe_get` returns
exactly what manual successive indexing would return when the full path
exists, and the default as soon as a segment is missing at any depth or the
current value is not a mapping; being a total Lean function it raises
nothing. -/
theorem safe_get_matches_manual_indexing (d : JVal) (path : List String) (default : JVal) :
    safe_get d path default = (manualIndex d path).getD default := by
  induction path generalizing d with
  | nil => rfl
  | cons p ps ih =>
    cases d with
    | obj fields =>
      cases h : fields.lookup p with
      | none => simp [safe_get, manualIndex, h]
      | some v => simp [safe_get, manualIndex, h, ih]
    | null => rfl
    | bool b => rfl
    | num n => rfl
    | str s => rfl
    | arr l => rfl

-- ---------------------------------------------------------------------------
-- log_error (src/streamlit_app.py lines 43-45)
-- ---------------------------------------------------------------------------

/-- One entry of the session error log: a timestamp and a message. -/
structure LogEntry where
  t : String
  msg : String

/-- Source `log_error(msg)`: append a timestamped entry to the session error log and
keep only the last 8 entries (`[-8:]`).  The wall-clock timestamp is passed
in explicitly. -/
def log_error (now msg : String) (log : List LogEntry) : List LogEntry :=
  let appended := log ++ [⟨now, msg⟩]
  appended.drop (appended.length - 8)

/-- C9: after every `log_error` call the log holds at most 8 entries (the
code's bound), namely exactly the most recent ones in order: the result is a
suffix of the appended log of length `min (previous length + 1) 8`; in
particular the bound is re-established from any prior state, so it is an
invariant preserved by every call. -/
theorem log_error_bounded (now msg : String) (log : List LogEntry) :
    (log_error now msg log).length = min (log.length + 1) 8 ∧
    (log_error now msg log).length ≤ 8 ∧
    log_error now msg log <:+ log ++ [⟨now, msg⟩] := by
  refine ⟨?_, ?_, List.drop_suffix _ _⟩ <;> simp [log_error] <;> omega

-- ---------------------------------------------------------------------------
-- api_get retry loop (src/streamlit_app.py lines 61-86)
-- ---------------------------------------------------------------------------

/-- What one HTTP attempt inside `api_get` can come back with: a
network-level failure (`requests.RequestException`, which also covers a body
that fails to parse as JSON) or a response with a status code and a parsed
JSON body. -/
inductive HttpOutcome where
  | netFail
  | resp (status : Nat) (body : JVal)

/-- The transient status set of `api_get`
(`r.status_code in (408, 409, 429, 500, 502, 503, 504)`). -/
def transientStatus (s : Nat) : Bool :=
  s == 408 || s == 409 || s == 429 || s == 500 || s == 502 || s == 503 || s == 504

/-- An attempt outcome after which `api_get` moves on to the next attempt:
a network failure, or an error response whose status is in the transient
set. -/
def retryable : HttpOutcome → Bool
  | .netFail => true
  | .resp s _ => decide (400 ≤ s) && transientStatus s

/-- The status code of an outcome, if it is a response at all. -/
def statusOf : HttpOutcome → Option Nat
  | .netFail => none
  | .resp s _ => some s

/-- Instrumented result of one `api_get` call: the returned mapping, how many
HTTP requests were issued, how many entries were appended to the error log,
and the back-off delays slept (in tenths of a second, in order). -/
structure FetchTrace where
  result : JVal
  requests : Nat
  newLogs : Nat
  sleeps : List Nat

/-- The body of `api_get`'s `for attempt in range(1, 4)` loop.  `outcomes i`
is what the `i`-th HTTP request would come back with (attempts are numbered
from 1 as in the source); `fuel` is the number of loop iterations left, so
the loop is entered with `fuel = 3` and `attempt = 1`; `lastErr` records
whether the `last_err` variable holds a (necessarily non-empty) message.  A
network failure sleeps `0.5 * attempt` seconds and retries; an error status
in the transient set sleeps `0.6 * attempt` seconds and retries; any other
status of at least 400 breaks out of the loop; a status below 400 returns
the parsed body at once, skipping the final logging.  When the loop ends
without returning, `last_err` is logged once and `{}` is returned. -/
def api_get_attempts (outcomes : Nat → HttpOutcome) :
    Nat → Nat → Bool → Nat → List Nat → FetchTrace
  | 0, _, lastErr, reqs, sleeps =>
    ⟨.obj [], reqs, if lastErr then 1 else 0, sleeps.reverse⟩
  | fuel + 1, attempt, _, reqs, sleeps =>
    match outcomes attempt with
    | .netFail =>
      api_get_attempts outcomes fuel (attempt + 1) true (reqs + 1) (5 * attempt :: sleeps)
    | .resp s body =>
      if 400 ≤ s then
        if transientStatus s then
          api_get_attempts outcomes fuel (attempt + 1) true (reqs + 1) (6 * attempt :: sleeps)
        else
          ⟨.obj [], reqs + 1, 1, sleeps.reverse⟩
      else
        ⟨body, reqs + 1, 0, sleeps.reverse⟩

/-- Source `api_get(path, params)` at the granularity of individual HTTP attempts:
up to 3 attempts against the resolved URL, with the retry/backoff/logging
policy of `api_get_attempts`. -/
def api_get_retry (outcomes : Nat → HttpOutcome) : FetchTrace :=
  api_get_attempts outcomes 3 1 false 0 []

/-- The per-attempt back-off rate, in tenths of a second per attempt number:
network failures sleep `0.5 * attempt`, transient error responses
`0.6 * attempt`. -/
def sleepRate : HttpOutcome → Nat
  | .netFail => 5
  | .resp _ _ => 6

/-- What `api_get` returns when an attempt ends the loop. -/
def stopResult : HttpOutcome → JVal
  | .netFail => .obj []
  | .resp s b => if 400 ≤ s then .obj [] else b

/-- How many log entries `api_get` writes when an attempt ends the loop. -/
def stopLogs : HttpOutcome → Nat
  | .netFail => 0
  | .resp s _ => if 400 ≤ s then 1 else 0

theorem api_get_attempts_retry (outcomes : Nat → HttpOutcome) (fuel attempt : Nat)
    (lastErr : Bool) (reqs : Nat) (sleeps : List Nat)
    (h : retryable (outcomes attempt) = true) :
    api_get_attempts outcomes (fuel + 1) attempt lastErr reqs sleeps =
      api_get_attempts outcomes fuel (attempt + 1) true (reqs + 1)
        (sleepRate (outcomes attempt) * attempt :: sleeps) := by
  rcases ho : outcomes attempt with _ | ⟨s, b⟩
  · simp [api_get_attempts, ho, sleepRate]
  · rw [ho, retryable] at h
    simp only [Bool.and_eq_true, decide_eq_true_eq] at h
    simp [api_get_attempts, ho, h.1, h.2, sleepRate]

theorem api_get_attempts_stop (outcomes : Nat → HttpOutcome) (fuel attempt : Nat)
    (lastErr : Bool) (reqs : Nat) (sleeps : List Nat)
    (h : retryable (outcomes attempt) = false) :
    api_get_attempts outcomes (fuel + 1) attempt lastErr reqs sleeps =
      ⟨stopResult (outcomes attempt), reqs + 1, stopLogs (outcomes attempt),
        sleeps.reverse⟩ := by
  rcases ho : outcomes attempt with _ | ⟨s, b⟩
  · rw [ho, retryable] at h
    exact absurd h (by simp)
  · rw [ho, retryable] at h
    simp only [Bool.and_eq_false_iff, decide_eq_false_iff_not, not_le] at h
    rcases h with h | h
    · simp [api_get_attempts, ho, stopResult, stopLogs, Nat.not_le_of_lt h, if_neg]
    · by_cases hs : 400 ≤ s
      · simp [api_get_attempts, ho, stopResult, stopLogs, hs, h]
      · simp [api_get_attempts, ho, stopResult, stopLogs, hs]

theorem retryable_of_status_503 (o : HttpOutcome) (h : statusOf o = some 503) :
    retryable o = true := by
  cases o with
  | netFail => exact absurd h (by simp [statusOf])
  | resp s b =>
    simp only [statusOf, Option.some.injEq] at h
    subst h
    simp [retryable, transientStatus]

/-- C3: `api_get` makes between 1 and 3 attempts; a second attempt happens
exactly when the first outcome is a network failure or a transient error
status (so never on another 4xx), and likewise for the third; the back-off
delays slept are strictly increasing; and when every attempt comes back with
status 503, exactly 3 requests are issued and the empty mapping is
returned. -/
theorem api_get_retry_policy (outcomes : Nat → HttpOutcome) :
    1 ≤ (api_get_retry outcomes).requests ∧
    (api_get_retry outcomes).requests ≤ 3 ∧
    (2 ≤ (api_get_retry outcomes).requests ↔ retryable (outcomes 1) = true) ∧
    (3 ≤ (api_get_retry outcomes).requests ↔
      retryable (outcomes 1) = true ∧ retryable (outcomes 2) = true) ∧
    (api_get_retry outcomes).sleeps.Chain' (fun a b => a < b) ∧
    ((∀ i, 1 ≤ i → i ≤ 3 → statusOf (outcomes i) = some 503) →
      (api_get_retry outcomes).requests = 3 ∧ (api_get_retry outcomes).result = .obj []) := by
  have rate_lb : ∀ o, 5 ≤ sleepRate o := by intro o; cases o <;> simp [sleepRate]
  have rate_ub : ∀ o, sleepRate o ≤ 6 := by intro o; cases o <;> simp [sleepRate]
  by_cases r1 : retryable (outcomes 1) = true
  · by_cases r2 : retryable (outcomes 2) = true
    · by_cases r3 : retryable (outcomes 3) = true
      · have e : api_get_retry outcomes =
            ⟨.obj [], 3, 1,
              [sleepRate (outcomes 1) * 1, sleepRate (outcomes 2) * 2,
                sleepRate (outcomes 3) * 3]⟩ := by
          rw [api_get_retry, api_get_attempts_retry outcomes 2 1 false 0 [] r1,
            api_get_attempts_retry outcomes 1 2 true 1 _ r2,
            api_get_attempts_retry outcomes 0 3 true 2 _ r3]
          rfl
        rw [e]; dsimp only
        refine ⟨by omega, by omega, by simpa using r1, by simp [r1, r2], ?_, fun _ => ⟨rfl, rfl⟩⟩
        have b1 := rate_lb (outcomes 1); have b2 := rate_lb (outcomes 2)
        have b3 := rate_lb (outcomes 3); have c1 := rate_ub (outcomes 1)
        have c2 := rate_ub (outcomes 2); have c3 := rate_ub (outcomes 3)
        simp only [List.chain'_cons, List.chain'_singleton, and_true]
        omega
      · have e : api_get_retry outcomes =
            ⟨stopResult (outcomes 3), 3, stopLogs (outcomes 3),
              [sleepRate (outcomes 1) * 1, sleepRate (outcomes 2) * 2]⟩ := by
          rw [api_get_retry, api_get_attempts_retry outcomes 2 1 false 0 [] r1,
            api_get_attempts_retry outcomes 1 2 true 1 _ r2,
            api_get_attempts_stop outcomes 0 3 true 2 _ (by simpa using r3)]
          rfl
        rw [e]; dsimp only
        refine ⟨by omega, by omega, by simpa using r1, by simp [r1, r2], ?_, fun h => ?_⟩
        · have b2 := rate_lb (outcomes 2); have c1 := rate_ub (outcomes 1)
          simp only [List.chain'_cons, List.chain'_singleton, and_true]
          omega
        · exact absurd (retryable_of_status_503 _ (h 3 (by omega) (by omega))) r3
    · have e : api_get_retry outcomes =
          ⟨stopResult (outcomes 2), 2, stopLogs (outcomes 2),
            [sleepRate (outcomes 1) * 1]⟩ := by
        rw [api_get_retry, api_get_attempts_retry outcomes 2 1 false 0 [] r1,
          api_get_attempts_stop outcomes 1 2 true 1 _ (by simpa using r2)]
        rfl
      rw [e]; dsimp only
      refine ⟨by omega, by omega, by simpa using r1, by simp [r2], by simp, fun h => ?_⟩
      exact absurd (retryable_of_status_503 _ (h 2 (by omega) (by omega))) r2
  · have e : api_get_retry outcomes =
        ⟨stopResult (outcomes 1), 1, stopLogs (outcomes 1), []⟩ := by
      rw [api_get_retry, api_get_attempts_stop outcomes 2 1 false 0 [] (by simpa using r1)]
      rfl
    rw [e]; dsimp only
    refine ⟨by omega, by omega, by simp [r1], by simp [r1], by simp, fun h => ?_⟩
    exact absurd (retryable_of_status_503 _ (h 1 (by omega) (by omega))) r1

/-- C3 witness: with every attempt answering 503, the policy theorem yields
exactly 3 requests and an empty mapping. -/
theorem api_get_retry_policy_witness :
    (∀ i, 1 ≤ i → i ≤ 3 →
      statusOf ((fun _ => HttpOutcome.resp 503 .null) i) = some 503) ∧
    (api_get_retry (fun _ => HttpOutcome.resp 503 .null)).requests = 3 ∧
    (api_get_retry (fun _ => HttpOutcome.resp 503 .null)).result = .obj [] :=
  ⟨fun _ _ _ => rfl,
    (api_get_retry_policy (fun _ => HttpOutcome.resp 503 .null)).2.2.2.2.2
      (fun _ _ _ => rfl)⟩

/-- C4: when every attempt fails retryably (network failure or transient
error status), `api_get` returns the empty mapping and appends exactly one
new entry to the error log; being a total Lean function it raises nothing to
its caller. -/
theorem api_get_exhaustion_logs_once (outcomes : Nat → HttpOutcome)
    (h : ∀ i, 1 ≤ i → i ≤ 3 → retryable (outcomes i) = true) :
    (api_get_retry outcomes).result = .obj [] ∧
    (api_get_retry outcomes).newLogs = 1 := by
  have e : api_get_retry outcomes =
      ⟨.obj [], 3, 1,
        [sleepRate (outcomes 1) * 1, sleepRate (outcomes 2) * 2,
          sleepRate (outcomes 3) * 3]⟩ := by
    rw [api_get_retry, api_get_attempts_retry outcomes 2 1 false 0 [] (h 1 (by omega) (by omega)),
      api_get_attempts_retry outcomes 1 2 true 1 _ (h 2 (by omega) (by omega)),
      api_get_attempts_retry outcomes 0 3 true 2 _ (h 3 (by omega) (by omega))]
    rfl
  rw [e]; dsimp only
  exact ⟨rfl, rfl⟩

/-- C4 witness: three network failures end in an empty mapping and one new
log entry. -/
theorem api_get_exhaustion_logs_once_witness :
    (∀ i, 1 ≤ i → i ≤ 3 → retryable ((fun _ => HttpOutcome.netFail) i) = true) ∧
    (api_get_retry (fun _ => HttpOutcome.netFail)).result = .obj [] ∧
    (api_get_retry (fun _ => HttpOutcome.netFail)).newLogs = 1 :=
  ⟨fun _ _ _ => rfl, api_get_exhaustion_logs_once (fun _ => HttpOutcome.netFail)
    (fun _ _ _ => rfl)⟩

-- ---------------------------------------------------------------------------
-- parse_list_row_min (src/streamlit_app.py lines 124-150)
-- ---------------------------------------------------------------------------

/-- The `info` dictionary built by `parse_list_row_min`; all five keys are
created up front with `""` values, so they are always present. -/
structure RowInfo where
  date_time : JVal
  hall : JVal
  home : JVal
  away : JVal
  result : JVal

/-- Python `x == "game_detail"`. -/
def isGameDetail : JVal → Bool
  | .str s => s == "game_detail"
  | _ => false

/-- Source `ids = ln.get("ids") or []; if ids: gid = ids[0]` guarded by
`isinstance(ln, dict) and ln.get("page") == "game_detail"`. -/
def linkGid (ln : JVal) : Except PyErr (Option JVal) :=
  match ln with
  | .obj fields =>
    if isGameDetail ((fields.lookup "page").getD .null) then
      let ids := pyOr ((fields.lookup "ids").getD .null) (.arr [])
      if ids.truthy then
        match pyIndexNat ids 0 with
        | .error e => .error e
        | .ok v => .ok (some v)
      else .ok none
    else .ok none
  | _ => .ok none

/-- Collects a Python list as strings, raising `TypeError` on the first
non-string element (as `" ".join` would). -/
def strListOf : List JVal → Except PyErr (List String)
  | [] => .ok []
  | .str s :: rest =>
    match strListOf rest with
    | .error e => .error e
    | .ok ss => .ok (s :: ss)
  | _ :: _ => .error .typeError

/-- Python `" ".join(x)`: joins a list of strings, the characters of a
string, or the keys of a dictionary; raises `TypeError` otherwise. -/
def pyJoinSpace : JVal → Except PyErr JVal
  | .arr l =>
    match strListOf l with
    | .error e => .error e
    | .ok ss => .ok (.str (String.intercalate " " ss))
  | .str s => .ok (.str (String.intercalate " " (s.data.map (fun c => String.mk [c]))))
  | .obj fields => .ok (.str (String.intercalate " " (fields.map (fun p => p.1))))
  | _ => .error .typeError

/-- Source `txt = cells[i].get("text", []); txt[0] if txt else old`, executed only
when `len(cells) > i` (with `n = len(cells)` passed in). -/
def textCell (cells : JVal) (n i : Nat) (old : JVal) : Except PyErr JVal :=
  if i < n then
    match pyIndexNat cells i with
    | .error e => .error e
    | .ok cell =>
      match pyGet cell "text" (.arr []) with
      | .error e => .error e
      | .ok txt => if txt.truthy then pyIndexNat txt 0 else .ok old
  else .ok old

/-- Source `txt = cells[7].get("text", []); " ".join(txt) if txt else old`. -/
def joinCell (cells : JVal) (n : Nat) (old : JVal) : Except PyErr JVal :=
  if 7 < n then
    match pyIndexNat cells 7 with
    | .error e => .error e
    | .ok cell =>
      match pyGet cell "text" (.arr []) with
      | .error e => .error e
      | .ok txt => if txt.truthy then pyJoinSpace txt else .ok old
  else .ok old

/-- The `if len(cells) > 0:` block: fills `date_time` from the first text
entry of cell 0 and extracts the game id from its `game_detail` link. -/
def cellZero (cells : JVal) (n : Nat) (info : RowInfo) : Except PyErr (Option JVal × RowInfo) :=
  if 0 < n then
    match pyIndexNat cells 0 with
    | .error e => .error e
    | .ok cell =>
      match pyGet cell "text" (.arr []) with
      | .error e => .error e
      | .ok txt =>
        match (if txt.truthy then Except.map some (pyIndexNat txt 0) else .ok none) with
        | .error e => .error e
        | .ok dt =>
          let info2 := match dt with
            | some v => { info with date_time := v }
            | none => info
          match pyGet cell "link" (.obj []) with
          | .error e => .error e
          | .ok ln =>
            match linkGid ln with
            | .error e => .error e
            | .ok g => .ok (g, info2)
  else .ok (none, info)

/-- The `if gid is None: for c in cells:` fallback: first `game_detail` link
with a truthy id list, stopping at the first hit. -/
def gidFallback : List JVal → Except PyErr (Option JVal)
  | [] => .ok none
  | c :: rest =>
    match pyGet c "link" .null with
    | .error e => .error e
    | .ok ln =>
      match linkGid ln with
      | .error e => .error e
      | .ok (some v) => .ok (some v)
      | .ok none => gidFallback rest

/-- Source `parse_list_row_min(row)`: the list-mode cell-layout normalizer.  Returns
the extracted game id (if any) and the `info` dictionary; propagates the
Python exception when the record does not have the shapes the code indexes
into. -/
def parse_list_row_min (row : JVal) : Except PyErr (Option JVal × RowInfo) :=
  match pyGet row "cells" (.arr []) with
  | .error e => .error e
  | .ok cells =>
    match pyLen cells with
    | .error e => .error e
    | .ok n =>
      match cellZero cells n ⟨.str "", .str "", .str "", .str "", .str ""⟩ with
      | .error e => .error e
      | .ok (gid, i1) =>
        match textCell cells n 1 i1.hall with
        | .error e => .error e
        | .ok hall =>
          match textCell cells n 2 i1.home with
          | .error e => .error e
          | .ok home =>
            match textCell cells n 6 i1.away with
            | .error e => .error e
            | .ok away =>
              match joinCell cells n i1.result with
              | .error e => .error e
              | .ok result =>
                let info : RowInfo :=
                  { i1 with hall := hall, home := home, away := away, result := result }
                match gid with
                | some g => .ok (some g, info)
                | none =>
                  match pyIter cells with
                  | .error e => .error e
                  | .ok cs =>
                    match gidFallback cs with
                    | .error e => .error e
                    | .ok g2 => .ok (g2, info)

-- Well-formedness of list-mode cells: the shape the upstream actually sends,
-- under which the normalizer is exception-free.

/-- Whether a JSON value is a string. -/
def JVal.isStrVal : JVal → Bool
  | .str _ => true
  | _ => false

/-- A list of strings (the shape of a cell's `text` field). -/
def JVal.isStrArr : JVal → Bool
  | .arr l => l.all JVal.isStrVal
  | _ => false

/-- An `ids` value the link code can index safely: falsy, or a list. -/
def wfIds (v : JVal) : Bool :=
  !v.truthy ||
    (match v with
      | .arr _ => true
      | _ => false)

/-- A `link` value the code can process safely. -/
def wfLink : JVal → Bool
  | .obj fields => wfIds ((fields.lookup "ids").getD .null)
  | _ => true

/-- A well-formed list-mode cell: a mapping whose `text` (if present) is a
list of strings and whose `link` (if present and a mapping) carries ids that
are a list when truthy. -/
def wfCell : JVal → Bool
  | .obj fields =>
    JVal.isStrArr ((fields.lookup "text").getD (.arr [])) &&
      wfLink ((fields.lookup "link").getD (.obj []))
  | _ => false

/-- The first text entry of a cell, or `old` when the cell has none. -/
def cellFirstText (c : JVal) (old : JVal) : JVal :=
  match c with
  | .obj fields =>
    match (fields.lookup "text").getD (.arr []) with
    | .arr (v :: _) => v
    | _ => old
  | _ => old

/-- Source `txt[0] if txt else old` over the text of `cells[i]`, as a total
specification function. -/
def cellTextSpec (cs : List JVal) (i : Nat) (old : JVal) : JVal :=
  match cs.get? i with
  | some c => cellFirstText c old
  | none => old

/-- The game id `linkGid` computes on well-formed links. -/
def linkGidSpec : JVal → Option JVal
  | .obj lf =>
    if isGameDetail ((lf.lookup "page").getD .null) then
      match (lf.lookup "ids").getD .null with
      | .arr (v :: _) => some v
      | _ => none
    else none
  | _ => none

/-- The game id carried by a cell's link, if any. -/
def cellLinkGid : JVal → Option JVal
  | .obj fields => linkGidSpec ((fields.lookup "link").getD (.obj []))
  | _ => none

/-- The first cell link id of a list of cells, if any. -/
def firstGid : List JVal → Option JVal
  | [] => none
  | c :: rest =>
    match cellLinkGid c with
    | some v => some v
    | none => firstGid rest

theorem linkGid_wf (ln : JVal) (h : wfLink ln = true) :
    linkGid ln = .ok (linkGidSpec ln) := by
  cases ln with
  | obj lf =>
    rw [wfLink] at h
    rw [linkGid, linkGidSpec]
    by_cases hpg : isGameDetail ((lf.lookup "page").getD .null) = true
    · rw [if_pos hpg, if_pos hpg]
      rcases hv : (lf.lookup "ids").getD .null with _ | b | n | s | l | f
      · simp [pyOr, JVal.truthy]
      · rw [hv] at h
        simp only [wfIds, JVal.truthy, Bool.or_false, Bool.not_eq_true'] at h
        subst h
        simp [pyOr, JVal.truthy]
      · rw [hv] at h
        simp only [wfIds, JVal.truthy, Bool.or_false, Bool.not_eq_true',
          bne_eq_false_iff_eq] at h
        subst h
        simp [pyOr, JVal.truthy]
      · rw [hv] at h
        simp only [wfIds, JVal.truthy, Bool.or_false, Bool.not_eq_true',
          bne_eq_false_iff_eq] at h
        subst h
        simp [pyOr, JVal.truthy]
      · cases l with
        | nil => simp [pyOr, JVal.truthy]
        | cons v vs => simp [pyOr, JVal.truthy, pyIndexNat]
      · rw [hv] at h
        simp only [wfIds, JVal.truthy, Bool.or_false, Bool.not_eq_true'] at h
        have hf : f = [] := by
          cases f with
          | nil => rfl
          | cons p ps => simp at h
        subst hf
        simp [pyOr, JVal.truthy]
    · rw [if_neg hpg, if_neg hpg]
  | null => rfl
  | bool b => rfl
  | num n => rfl
  | str s => rfl
  | arr l => rfl

theorem wfCell_obj (c : JVal) (h : wfCell c = true) :
    ∃ fields, c = .obj fields ∧
      JVal.isStrArr ((fields.lookup "text").getD (.arr [])) = true ∧
      wfLink ((fields.lookup "link").getD (.obj [])) = true := by
  cases c with
  | obj fields =>
    rw [wfCell, Bool.and_eq_true] at h
    exact ⟨fields, rfl, h.1, h.2⟩
  | null => simp [wfCell] at h
  | bool b => simp [wfCell] at h
  | num n => simp [wfCell] at h
  | str s => simp [wfCell] at h
  | arr l => simp [wfCell] at h

theorem lt_length_of_getQ (l : List JVal) (i : Nat) (x : JVal) (h : l.get? i = some x) :
    i < l.length := by
  induction l generalizing i with
  | nil => simp at h
  | cons a as ih =>
    cases i with
    | zero => simp
    | succ j => simpa using ih j (by simpa using h)

theorem mem_of_getQ (l : List JVal) (i : Nat) (x : JVal) (h : l.get? i = some x) :
    x ∈ l := by
  induction l generalizing i with
  | nil => simp at h
  | cons a as ih =>
    cases i with
    | zero => simp at h; simp [h]
    | succ j => exact List.mem_cons_of_mem a (ih j (by simpa using h))

theorem getQ_none_of_le (l : List JVal) (i : Nat) (h : l.length ≤ i) :
    l.get? i = none := by
  induction l generalizing i with
  | nil => simp
  | cons a as ih =>
    cases i with
    | zero => simp at h
    | succ j => simpa using ih j (by simpa using h)

theorem getQ_some_of_lt (l : List JVal) (i : Nat) (h : i < l.length) :
    ∃ x, l.get? i = some x := by
  induction l generalizing i with
  | nil => simp at h
  | cons a as ih =>
    cases i with
    | zero => exact ⟨a, rfl⟩
    | succ j => simpa using ih j (by simpa using h)

theorem strArr_shape (t : JVal) (h : JVal.isStrArr t = true) : ∃ l, t = .arr l := by
  cases t <;> simp_all [JVal.isStrArr]

theorem textCell_wf (cs : List JVal) (i : Nat) (old : JVal)
    (hwf : ∀ c ∈ cs, wfCell c = true) :
    textCell (.arr cs) cs.length i old = .ok (cellTextSpec cs i old) := by
  rw [textCell, cellTextSpec]
  cases hc : cs.get? i with
  | none =>
    have hi : ¬ i < cs.length := by
      intro hlt
      obtain ⟨x, hx⟩ := getQ_some_of_lt cs i hlt
      rw [hx] at hc
      cases hc
    rw [if_neg hi]
  | some c =>
    have hi : i < cs.length := lt_length_of_getQ cs i c hc
    rw [if_pos hi]
    obtain ⟨fields, hcf, htext, hlink⟩ := wfCell_obj c (hwf c (mem_of_getQ cs i c hc))
    simp only [pyIndexNat, hc, hcf, pyGet, cellFirstText]
    obtain ⟨l, hl⟩ := strArr_shape _ htext
    rw [hl]
    cases l with
    | nil => simp [JVal.truthy]
    | cons v vs => simp [JVal.truthy, pyIndexNat]

/-- The link id of the first cell, if any cell exists. -/
def headLinkGid : List JVal → Option JVal
  | c :: _ => cellLinkGid c
  | [] => none

theorem cellZero_wf (cs : List JVal) (info : RowInfo)
    (hwf : ∀ c ∈ cs, wfCell c = true) :
    cellZero (.arr cs) cs.length info =
      .ok (headLinkGid cs,
        { info with date_time := cellTextSpec cs 0 info.date_time }) := by
  cases cs with
  | nil => rfl
  | cons c rest =>
    obtain ⟨fields, hcf, htext, hlink⟩ := wfCell_obj c (hwf c (by simp))
    rw [cellZero, if_pos (by simp)]
    simp only [pyIndexNat, List.get?, hcf, pyGet, cellTextSpec, cellFirstText, cellLinkGid,
      headLinkGid]
    obtain ⟨l, hl⟩ := strArr_shape _ htext
    rw [hl]
    rw [linkGid_wf _ hlink]
    cases l with
    | nil => simp [JVal.truthy]
    | cons v vs => simp [JVal.truthy, pyIndexNat, Except.map]

theorem strListOf_wf (l : List JVal) (h : ∀ v ∈ l, JVal.isStrVal v = true) :
    ∃ ss, strListOf l = .ok ss := by
  induction l with
  | nil => exact ⟨[], rfl⟩
  | cons v vs ih =>
    have hv := h v (by simp)
    cases v with
    | str s =>
      obtain ⟨ss, hss⟩ := ih (fun w hw => h w (by simp [hw]))
      exact ⟨s :: ss, by rw [strListOf, hss]⟩
    | null => simp [JVal.isStrVal] at hv
    | bool b => simp [JVal.isStrVal] at hv
    | num n => simp [JVal.isStrVal] at hv
    | arr xs => simp [JVal.isStrVal] at hv
    | obj fs => simp [JVal.isStrVal] at hv

theorem joinCell_wf (cs : List JVal) (old : JVal)
    (hwf : ∀ c ∈ cs, wfCell c = true) :
    ∃ v, joinCell (.arr cs) cs.length old = .ok v := by
  rw [joinCell]
  by_cases hi : 7 < cs.length
  · rw [if_pos hi]
    obtain ⟨c, hc⟩ := getQ_some_of_lt cs 7 hi
    obtain ⟨fields, hcf, htext, hlink⟩ := wfCell_obj c (hwf c (mem_of_getQ cs 7 c hc))
    simp only [pyIndexNat, hc, hcf, pyGet]
    obtain ⟨l, hl⟩ := strArr_shape _ htext
    rw [hl]
    by_cases ht : (JVal.arr l).truthy = true
    · rw [if_pos ht]
      rw [hl] at htext
      obtain ⟨ss, hss⟩ := strListOf_wf l (by simpa [JVal.isStrArr, List.all_eq_true] using htext)
      exact ⟨.str (String.intercalate " " ss), by rw [pyJoinSpace, hss]⟩
    · rw [if_neg ht]
      exact ⟨old, rfl⟩
  · rw [if_neg hi]
    exact ⟨old, rfl⟩

theorem gidFallback_wf (cs : List JVal) (hwf : ∀ c ∈ cs, wfCell c = true) :
    gidFallback cs = .ok (firstGid cs) := by
  induction cs with
  | nil => rfl
  | cons c rest ih =>
    obtain ⟨fields, hcf, htext, hlink⟩ := wfCell_obj c (hwf c (by simp))
    rw [gidFallback, firstGid]
    subst hcf
    simp only [pyGet]
    have hln : wfLink ((fields.lookup "link").getD .null) = true := by
      cases hlk : fields.lookup "link" with
      | none => rfl
      | some l => rw [hlk] at hlink; simpa using hlink
    rw [linkGid_wf _ hln]
    have hspec : linkGidSpec ((fields.lookup "link").getD .null) =
        cellLinkGid (.obj fields) := by
      rw [cellLinkGid]
      cases hlk : fields.lookup "link" with
      | none => rfl
      | some l => rfl
    rw [hspec]
    cases cellLinkGid (.obj fields) with
    | some v => rfl
    | none => exact ih (fun w hw => hwf w (by simp [hw]))

/-- C8 (amended): on records whose `cells` entry is a list of well-formed
cells (mappings whose `text` is a list of strings and whose link ids, when
truthy, are a list), `parse_list_row_min` raises nothing; missing cells
leave the corresponding fields at their `""` default, and a record carrying
only the list-mode cell layout (no nested `game` object) populates
`date_time`, `home` and `away` from the first text entries of cells 0, 2
and 6. -/
theorem parse_list_row_min_wf (rowFields : List (String × JVal)) (cs : List JVal)
    (hcells : (rowFields.lookup "cells").getD (.arr []) = .arr cs)
    (hwf : ∀ c ∈ cs, wfCell c = true) :
    ∃ gid info, parse_list_row_min (.obj rowFields) = .ok (gid, info) ∧
      info.date_time = cellTextSpec cs 0 (.str "") ∧
      info.home = cellTextSpec cs 2 (.str "") ∧
      info.away = cellTextSpec cs 6 (.str "") := by
  rw [parse_list_row_min]
  simp only [pyGet, hcells, pyLen]
  rw [cellZero_wf cs _ hwf]
  dsimp only
  rw [textCell_wf cs 1 _ hwf, textCell_wf cs 2 _ hwf, textCell_wf cs 6 _ hwf]
  obtain ⟨rv, hrv⟩ := joinCell_wf cs (JVal.str "") hwf
  rw [hrv]
  dsimp only
  cases hg : headLinkGid cs with
  | some g => exact ⟨some g, _, rfl, rfl, rfl, rfl⟩
  | none =>
    simp only [pyIter]
    rw [gidFallback_wf cs hwf]
    exact ⟨firstGid cs, _, rfl, rfl, rfl, rfl⟩

/-- C8 counterexample: `parse_list_row_min` as written can raise: on the
record `{"cells": 5}` the Python code evaluates `len(5)` and dies with a
`TypeError`, so "never raises" does not hold for every raw record. -/
theorem parse_list_row_min_can_raise :
    parse_list_row_min (.obj [("cells", .num 5)]) = .error .typeError := rfl

/-- A record carrying only the list-mode cell layout (8 cells, no nested
`game` object). -/
def cellOnlyRow : JVal :=
  .obj [("cells", .arr [
    .obj [("text", .arr [.str "01.09.2025 18:00"]),
          ("link", .obj [("page", .str "game_detail"), ("ids", .arr [.num 101])])],
    .obj [("text", .arr [.str "Halle A"])],
    .obj [("text", .arr [.str "Tigers Langnau"])],
    .obj [("text", .arr [.str "Liga"])],
    .obj [("text", .arr [.str "Gruppe"])],
    .obj [("text", .arr [.str "Runde"])],
    .obj [("text", .arr [.str "Frutigen"])],
    .obj [("text", .arr [.str "3:2"])]])]

/-- The cells of `cellOnlyRow`. -/
def cellOnlyRowCells : List JVal :=
  match cellOnlyRow with
  | .obj fields =>
    match (fields.lookup "cells").getD (.arr []) with
    | .arr cs => cs
    | _ => []
  | _ => []

/-- C8 witness: the well-formedness hypotheses hold for the concrete
cell-layout record, and the amended theorem populates `date_time`, `home`
and `away` from cells 0, 2 and 6. -/
theorem parse_list_row_min_wf_witness :
    (∀ c ∈ cellOnlyRowCells, wfCell c = true) ∧
    ∃ gid info, parse_list_row_min cellOnlyRow = .ok (gid, info) ∧
      info.date_time = .str "01.09.2025 18:00" ∧
      info.home = .str "Tigers Langnau" ∧
      info.away = .str "Frutigen" := by
  constructor
  · decide
  · obtain ⟨gid, info, h1, h2, h3, h4⟩ :=
      parse_list_row_min_wf
        [("cells", .arr cellOnlyRowCells)] cellOnlyRowCells rfl (by decide)
    refine ⟨gid, info, ?_, h2.trans rfl, h3.trans rfl, h4.trans rfl⟩
    exact h1

-- ---------------------------------------------------------------------------
-- The HTTP environment and the API wrappers
-- (src/streamlit_app.py lines 26, 61-122, 205-213)
-- ---------------------------------------------------------------------------

/-- One HTTP request the program issues: resolved URL and query parameters. -/
structure Request where
  url : String
  params : List (String × JVal)

/-- The upstream API as the program sees it through `api_get`/`http_get_raw`:
both helpers swallow transport errors and hand back a JSON value (possibly
`{}`), so the environment is a total function from requests to JSON.  The
attempt-level retry behaviour inside one call is verified separately on
`api_get_retry`. -/
structure Env where
  fetch : String → List (String × JVal) → JVal

def BASE_URL : String := "https://api-v2.swissunihockey.ch/api/"

/-- URL resolution of `api_get`: absolute URLs pass through, relative paths
are appended to the base URL (the call sites never carry leading or trailing
slashes, so the `rstrip`/`lstrip` pair is plain concatenation). -/
def strStartsWithHttp (path : String) : Bool :=
  charsPrefixOf "http".data path.data

def api_get_url (path : String) : String :=
  if strStartsWithHttp path then path else BASE_URL ++ path

/-- Source `api_get(path, params)` at environment granularity: resolve the URL,
issue the request, return the JSON the HTTP layer produced. -/
def api_get (env : Env) (path : String) (params : List (String × JVal)) :
    JVal × List Request :=
  (env.fetch (api_get_url path) params, [⟨api_get_url path, params⟩])

/-- Source `http_get_raw(url, params)`: un-cached GET used by the list-mode walk;
it catches every exception and returns `{}`, which the environment's
answer already accounts for. -/
def http_get_raw (env : Env) (url : String) (params : List (String × JVal)) :
    JVal × List Request :=
  (env.fetch url params, [⟨url, params⟩])

/-- Source `get_team(team_id)`. -/
def get_team (env : Env) (team_id : Int) : JVal × List Request :=
  api_get env ("teams/" ++ toString team_id) []

/-- The five parameter variants `get_games_team_mode` tries in order. -/
def gg_variants (team_id season per_page : Int) (view : String) :
    List (List (String × JVal)) :=
  [[("mode", .str "team"), ("team_id", .num team_id), ("season", .num season),
    ("games_per_page", .num per_page), ("view", .str view)],
   [("team_id", .num team_id), ("season", .num season),
    ("games_per_page", .num per_page), ("view", .str view)],
   [("mode", .str "team"), ("team_id", .num team_id), ("season", .num season),
    ("per_page", .num per_page), ("view", .str view)],
   [("team_id", .num team_id), ("season", .num season),
    ("per_page", .num per_page), ("view", .str view)],
   [("mode", .str "team"), ("team_id", .num team_id), ("season", .num season),
    ("per_page", .num per_page), ("view", .str "extended")]]

/-- Python `d[k] = v` on a dictionary: replace in place or append. -/
def objSet (j : JVal) (k : String) (v : JVal) : JVal :=
  match j with
  | .obj fields =>
    .obj (if (fields.lookup k).isSome then
            fields.map (fun p => if p.1 = k then (k, v) else p)
          else fields ++ [(k, v)])
  | _ => j

/-- The `for params in variants:` loop of `get_games_team_mode`: first
variant whose response has truthy `entries` wins and is returned with
`_used_params` stamped in; when none does, `{"entries": [],
"_used_params": variants[0]}` is returned. -/
def ggtmLoop (env : Env) (v0 : List (String × JVal)) :
    List Request → List (List (String × JVal)) → Except PyErr JVal × List Request
  | reqs, [] => (.ok (.obj [("entries", .arr []), ("_used_params", .obj v0)]), reqs)
  | reqs, ps :: rest =>
    let fetched := api_get env "games" ps
    match pyGet fetched.1 "entries" .null with
    | .error e => (.error e, reqs ++ fetched.2)
    | .ok ent =>
      if ent.truthy then
        (.ok (objSet fetched.1 "_used_params" (.obj ps)), reqs ++ fetched.2)
      else ggtmLoop env v0 (reqs ++ fetched.2) rest

/-- Source `get_games_team_mode(team_id, season, per_page, view)`. -/
def get_games_team_mode (env : Env) (team_id season per_page : Int) (view : String) :
    Except PyErr JVal × List Request :=
  ggtmLoop env ((gg_variants team_id season per_page view).headD []) []
    (gg_variants team_id season per_page view)

-- ---------------------------------------------------------------------------
-- extract_ids_rows_from_list / get_prev_round
-- (src/streamlit_app.py lines 152-171)
-- ---------------------------------------------------------------------------

/-- Lookup in the `rows_info` dictionary (keys are hashable scalars). -/
def rowsLookup (m : List (JVal × RowInfo)) (k : JVal) : Option RowInfo :=
  match m with
  | [] => none
  | (k2, v) :: rest => if JVal.scalarEq k2 k then some v else rowsLookup rest k

/-- The inner `for row in region.get("rows", []):` loop: parse each row,
keep truthy game ids (appending to `ids`, `setdefault` into `rows_info`,
which raises `TypeError` on an unhashable id). -/
def extractRows :
    List JVal × List (JVal × RowInfo) → List JVal →
      Except PyErr (List JVal × List (JVal × RowInfo))
  | acc, [] => .ok acc
  | acc, row :: rest =>
    match parse_list_row_min row with
    | .error e => .error e
    | .ok (gid, info) =>
      match gid with
      | some g =>
        if g.truthy then
          if g.hashable then
            extractRows
              (acc.1 ++ [g],
                if (rowsLookup acc.2 g).isSome then acc.2 else acc.2 ++ [(g, info)])
              rest
          else .error .typeError
        else extractRows acc rest
      | none => extractRows acc rest

/-- The outer `for region in data.get("regions", []):` loop. -/
def extractRegions :
    List JVal × List (JVal × RowInfo) → List JVal →
      Except PyErr (List JVal × List (JVal × RowInfo))
  | acc, [] => .ok acc
  | acc, region :: rest =>
    match pyGet region "rows" (.arr []) with
    | .error e => .error e
    | .ok rows =>
      match pyIter rows with
      | .error e => .error e
      | .ok rws =>
        match extractRows acc rws with
        | .error e => .error e
        | .ok acc2 => extractRegions acc2 rest

/-- Source `extract_ids_rows_from_list(payload)`. -/
def extract_ids_rows_from_list (payload : JVal) :
    Except PyErr (List JVal × List (JVal × RowInfo)) :=
  match pyGet payload "data" (.obj []) with
  | .error e => .error e
  | .ok data =>
    match pyGet data "regions" (.arr []) with
    | .error e => .error e
    | .ok regions =>
      match pyIter regions with
      | .error e => .error e
      | .ok regs => extractRegions ([], []) regs

/-- Source `get_prev_round(payload)`: the backward round pointer embedded in the
response slider, when it is an integer. -/
def get_prev_round (payload : JVal) : Except PyErr (Option Int) :=
  match pyGet payload "data" (.obj []) with
  | .error e => .error e
  | .ok data =>
    match pyGet data "slider" (.obj []) with
    | .error e => .error e
    | .ok slider =>
      match pyGet slider "prev" .null with
      | .error e => .error e
      | .ok prev =>
        match prev with
        | .obj pf =>
          let ctx := pyOr ((pf.lookup "set_in_context").getD .null) (.obj [])
          match pyGet ctx "round" .null with
          | .error e => .error e
          | .ok rnd =>
            match rnd with
            | .num r => .ok (some r)
            | _ => .ok none
        | _ => .ok none

-- ---------------------------------------------------------------------------
-- list_mode_iterate (src/streamlit_app.py lines 173-203)
-- ---------------------------------------------------------------------------

/-- Python `d[k] = v` on a parameter dictionary. -/
def setParam (ps : List (String × JVal)) (k : String) (v : JVal) :
    List (String × JVal) :=
  if (ps.lookup k).isSome then ps.map (fun p => if p.1 = k then (k, v) else p)
  else ps ++ [(k, v)]

/-- Python `gid in all_ids` (ids are hashable scalars). -/
def idsContains (l : List JVal) (g : JVal) : Bool :=
  match l with
  | [] => false
  | x :: rest => JVal.scalarEq x g || idsContains rest g

/-- Source `for gid in ids: if gid not in all_ids: all_ids.append(gid)`. -/
def mergeIds (all_ids : List JVal) : List JVal → List JVal
  | [] => all_ids
  | g :: rest => mergeIds (if idsContains all_ids g then all_ids else all_ids ++ [g]) rest

/-- Source `for gid, info in rows.items(): rows_map.setdefault(gid, info)`. -/
def mergeRows (m : List (JVal × RowInfo)) : List (JVal × RowInfo) → List (JVal × RowInfo)
  | [] => m
  | (g, i) :: rest =>
    mergeRows (if (rowsLookup m g).isSome then m else m ++ [(g, i)]) rest

/-- Instrumented result of `list_mode_iterate`: the returned pair (or the
propagated exception), the final `rounds_walked` counter, the rounds added
to `seen_rounds` in order, and the requests issued. -/
structure ListIterOut where
  res : Except PyErr (List JVal × List (JVal × RowInfo))
  walked : Nat
  visited : List Int
  reqs : List Request

/-- The backward `while prev_round and rounds_walked < max_rounds and
prev_round not in seen_rounds:` walk.  `fuel` is `max_rounds -
rounds_walked`, so `rounds_walked < max_rounds` is `fuel ≠ 0`; `prev = some
r` with `r ≠ 0` is Python truthiness of the optional integer round. -/
def listIterLoop (env : Env) (url : String) (params : List (String × JVal)) :
    Nat → Option Int → List Int → List JVal → List (JVal × RowInfo) → Nat →
      List Request → ListIterOut
  | fuel, prev, seen, all_ids, rows_map, walked, reqs =>
    match fuel, prev with
    | _, none => ⟨.ok (all_ids, rows_map), walked, seen, reqs⟩
    | 0, some _ => ⟨.ok (all_ids, rows_map), walked, seen, reqs⟩
    | f + 1, some r =>
      if r = 0 then ⟨.ok (all_ids, rows_map), walked, seen, reqs⟩
      else if seen.contains r then ⟨.ok (all_ids, rows_map), walked, seen, reqs⟩
      else
        let seen2 := seen ++ [r]
        let par2 := setParam params "round" (.num r)
        let fetched := http_get_raw env url par2
        let reqs2 := reqs ++ fetched.2
        match extract_ids_rows_from_list fetched.1 with
        | .error e => ⟨.error e, walked, seen2, reqs2⟩
        | .ok (ids, rows) =>
          match get_prev_round fetched.1 with
          | .error e => ⟨.error e, walked, seen2, reqs2⟩
          | .ok prev2 =>
            listIterLoop env url params f prev2 seen2 (mergeIds all_ids ids)
              (mergeRows rows_map rows) (walked + 1) reqs2

/-- Source `list_mode_iterate(league, game_class, season, group, max_rounds)`:
initial list-mode page, then the bounded backward round walk.  The
`sleep_s` throttling argument has no effect on values and is omitted. -/
def list_mode_iterate (env : Env) (league game_class : String) (season : Int)
    (group : JVal) (max_rounds : Nat) : ListIterOut :=
  let params0 : List (String × JVal) :=
    [("mode", .str "list"), ("season", .num season), ("league", .str league),
      ("game_class", .str game_class), ("view", .str "full")]
  let params := if group.truthy then params0 ++ [("group", group)] else params0
  let url := BASE_URL ++ "games"
  let fetched := http_get_raw env url params
  match extract_ids_rows_from_list fetched.1 with
  | .error e => ⟨.error e, 0, [], fetched.2⟩
  | .ok (ids, rows) =>
    match get_prev_round fetched.1 with
    | .error e => ⟨.error e, 0, [], fetched.2⟩
    | .ok prev => listIterLoop env url params max_rounds prev [] ids rows 0 fetched.2

-- ---------------------------------------------------------------------------
-- derive_context_from_team / find_upcoming_for_team
-- (src/streamlit_app.py lines 216-265)
-- ---------------------------------------------------------------------------

/-- Source `derive_context_from_team(team_id, season)`: fetch team metadata and
extract `(league, game_class, group, team_name)` directly via `safe_get`
(the `season` argument is accepted and unused, as in the source). -/
def derive_context_from_team (env : Env) (team_id season : Int) :
    (JVal × JVal × JVal × JVal) × List Request :=
  let fetched := get_team env team_id
  ((safe_get fetched.1 ["league", "id"] .null,
    safe_get fetched.1 ["game_class", "id"] .null,
    safe_get fetched.1 ["group", "name"] .null,
    safe_get fetched.1 ["name"] .null), fetched.2)

/-- The uniform row dictionary `find_upcoming_for_team` builds. -/
structure GameRow where
  game_id : JVal
  date_time : JVal
  home : JVal
  away : JVal
  result : JVal
  status : JVal

/-- One entry of the primary (`mode=team`) branch. -/
def buildPrimaryRow (ent : JVal) : Except PyErr GameRow :=
  match pyGet ent "game" (.obj []) with
  | .error e => .error e
  | .ok g =>
    match pyGet g "id" .null with
    | .error e => .error e
    | .ok gid1 =>
      .ok { game_id := pyOr gid1 (pyOr (dictGet g "game_id" .null) (dictGet ent "id" .null)),
            date_time := .str (pyStr (dictGet g "date" (.str "")) ++ " " ++
              pyStr (dictGet g "time" (.str ""))),
            home := safe_get g ["home_team", "name"] (.str ""),
            away := safe_get g ["away_team", "name"] (.str ""),
            result := dictGet g "result" (.str "-"),
            status := safe_get g ["status", "text"] (.str "") }

/-- The `for ent in prim["entries"]:` loop of the primary branch. -/
def buildPrimaryRows : List JVal → Except PyErr (List GameRow)
  | [] => .ok []
  | ent :: rest =>
    match buildPrimaryRow ent with
    | .error e => .error e
    | .ok r =>
      match buildPrimaryRows rest with
      | .error e => .error e
      | .ok rows => .ok (r :: rows)

/-- The `for gid in ids:` loop of the list-mode fallback: per id, lower-case
home and away (raising on non-string truthy values, as `str.lower` would),
keep the row when the team name occurs in either. -/
def buildListRows (name : JVal) (rows_map : List (JVal × RowInfo)) :
    List JVal → Except PyErr (List GameRow)
  | [] => .ok []
  | gid :: rest =>
    let info := rowsLookup rows_map gid
    let homeRaw := match info with
      | some r => r.home
      | none => JVal.null
    let awayRaw := match info with
      | some r => r.away
      | none => JVal.null
    match pyLower (pyOr homeRaw (.str "")) with
    | .error e => .error e
    | .ok h =>
      match pyLower (pyOr awayRaw (.str "")) with
      | .error e => .error e
      | .ok a =>
        match (if name.truthy then
                match pyLower name with
                | .error e => .error e
                | .ok nl => .ok (strContains h nl || strContains a nl)
              else .ok false : Except PyErr Bool) with
        | .error e => .error e
        | .ok keep =>
          match buildListRows name rows_map rest with
          | .error e => .error e
          | .ok rows =>
            if keep then
              .ok ({ game_id := gid,
                     date_time := (match info with
                       | some r => r.date_time
                       | none => .str ""),
                     home := (match info with
                       | some r => r.home
                       | none => .str ""),
                     away := (match info with
                       | some r => r.away
                       | none => .str ""),
                     result := (match info with
                       | some r => r.result
                       | none => .str ""),
                     status := .str "" } :: rows)
            else .ok rows

/-- Source `find_upcoming_for_team(team_id, team_name, season)`: primary
`mode=team` query, else derive the league context and fall back to the
filtered list-mode walk; both success paths truncate to the first 8 rows. -/
def find_upcoming_for_team (env : Env) (team_id : Int) (team_name : String)
    (season : Int) : Except PyErr (List GameRow) × List Request :=
  let prim := get_games_team_mode env team_id season 30 "short"
  match prim.1 with
  | .error e => (.error e, prim.2)
  | .ok p =>
    if (dictGet p "entries" .null).truthy then
      match pyIter (dictGet p "entries" .null) with
      | .error e => (.error e, prim.2)
      | .ok ents =>
        match buildPrimaryRows ents with
        | .error e => (.error e, prim.2)
        | .ok rows => (.ok (rows.take 8), prim.2)
    else
      let ctx := derive_context_from_team env team_id season
      let name := if team_name ≠ "" then JVal.str team_name
        else pyOr ctx.1.2.2.2 (.str "")
      if ctx.1.1.truthy && ctx.1.2.1.truthy then
        let iter := list_mode_iterate env (pyStr ctx.1.1) (pyStr ctx.1.2.1) season
          ctx.1.2.2.1 60
        match iter.res with
        | .error e => (.error e, prim.2 ++ ctx.2 ++ iter.reqs)
        | .ok (ids, rows_map) =>
          match buildListRows name rows_map ids with
          | .error e => (.error e, prim.2 ++ ctx.2 ++ iter.reqs)
          | .ok rows => (.ok (rows.take 8), prim.2 ++ ctx.2 ++ iter.reqs)
      else (.ok [], prim.2 ++ ctx.2)

-- ---------------------------------------------------------------------------
-- C10: the 8-row truncation bound
-- ---------------------------------------------------------------------------

/-- C10: whatever the environment answers, whenever
`find_upcoming_for_team` returns a row list at all it has at most 8 rows;
the bound is the literal `[:8]` of the source on both the team-mode and the
list-mode path and is not a parameter of the function (its Lean signature,
mirroring the Python one, takes no size argument). -/
theorem find_upcoming_at_most_8 (env : Env) (team_id : Int) (team_name : String)
    (season : Int) (out : List GameRow)
    (h : (find_upcoming_for_team env team_id team_name season).1 = .ok out) :
    out.length ≤ 8 := by
  rw [find_upcoming_for_team] at h
  dsimp only at h
  repeat' split at h
  all_goals simp_all
  all_goals simp [← h, List.length_take]

/-- C10 witness: an environment that answers every request with
`{"entries": []}` makes `find_upcoming_for_team` return an empty row list,
which the theorem bounds by 8. -/
theorem find_upcoming_at_most_8_witness :
    (find_upcoming_for_team ⟨fun _ _ => .obj [("entries", .arr [])]⟩ 1 "X" 2025).1 =
        .ok [] ∧
    ([] : List GameRow).length ≤ 8 :=
  ⟨rfl, find_upcoming_at_most_8 ⟨fun _ _ => .obj [("entries", .arr [])]⟩ 1 "X" 2025 [] rfl⟩

-- ---------------------------------------------------------------------------
-- C2: the bounded backward round walk
-- ---------------------------------------------------------------------------

theorem listIterLoop_bound (env : Env) (url : String) (params : List (String × JVal)) :
    ∀ (fuel : Nat) (prev : Option Int) (seen : List Int) (all_ids : List JVal)
      (rows_map : List (JVal × RowInfo)) (walked : Nat) (reqs : List Request),
      seen.Nodup →
      (listIterLoop env url params fuel prev seen all_ids rows_map walked reqs).walked ≤
          walked + fuel ∧
        (listIterLoop env url params fuel prev seen all_ids rows_map walked reqs).visited.Nodup := by
  intro fuel
  induction fuel with
  | zero =>
    intro prev seen all_ids rows_map walked reqs hs
    cases prev <;> exact ⟨Nat.le_add_right _ _, hs⟩
  | succ f ih =>
    intro prev seen all_ids rows_map walked reqs hs
    cases prev with
    | none => exact ⟨Nat.le_add_right _ _, hs⟩
    | some r =>
      rw [listIterLoop]
      by_cases hr : r = 0
      · rw [if_pos hr]
        exact ⟨Nat.le_add_right _ _, hs⟩
      · rw [if_neg hr]
        by_cases hc : seen.contains r = true
        · rw [if_pos hc]
          exact ⟨Nat.le_add_right _ _, hs⟩
        · rw [if_neg hc]
          have hnm : r ∉ seen := by simpa using hc
          have hs2 : (seen ++ [r]).Nodup := by simp [List.nodup_append, hs, hnm]
          dsimp only
          split
          · exact ⟨by dsimp only; omega, hs2⟩
          · split
            · exact ⟨by dsimp only; omega, hs2⟩
            · obtain ⟨h1, h2⟩ := ih _ (seen ++ [r]) _ _ (walked + 1) _ hs2
              exact ⟨by omega, h2⟩

/-- C2: for every environment (hence for every sequence of upstream
list-mode responses, including ones whose backward round pointer never
becomes empty or points back at an earlier round), `list_mode_iterate` is a
total function that walks at most `max_rounds` additional rounds — the cap
is 80 by default and 60 at the call site — and never walks the same round
twice: the rounds added to `seen_rounds` are pairwise distinct, so a
repeated pointer stops the walk early. -/
theorem list_mode_iterate_round_cap (env : Env) (league game_class : String)
    (season : Int) (group : JVal) (max_rounds : Nat) :
    (list_mode_iterate env league game_class season group max_rounds).walked ≤ max_rounds ∧
    (list_mode_iterate env league game_class season group max_rounds).visited.Nodup := by
  rw [list_mode_iterate]
  split
  · exact ⟨Nat.zero_le _, List.nodup_nil⟩
  · split
    · exact ⟨Nat.zero_le _, List.nodup_nil⟩
    · obtain ⟨h1, h2⟩ := listIterLoop_bound env _ _ max_rounds _ [] _ _ 0 _ List.nodup_nil
      exact ⟨by omega, h2⟩

-- ---------------------------------------------------------------------------
-- C7: context resolution
-- ---------------------------------------------------------------------------

/-- The team metadata the environment returns for a team id (what
`get_team` fetches). -/
def teamMetaOf (env : Env) (team_id : Int) : JVal :=
  env.fetch (api_get_url ("teams/" ++ toString team_id)) []

/-- An environment whose team metadata is empty (league, class, group and
name all unresolved) while its games endpoint would readily supply a league
id. -/
def envNoCtx : Env :=
  ⟨fun url _ =>
    if url = BASE_URL ++ "teams/429523" then .obj []
    else .obj [("entries",
      .arr [.obj [("game", .obj [("league", .obj [("id", .num 9)])])]])]⟩

/-- C7 counterexample: with every context field unresolved,
`derive_context_from_team` still issues exactly one request — the
team-metadata one — and returns all fields as `None`, although the games
endpoint of this environment carries a league id in its first entry: the
code never fetches a page of the team's games nor scans entries to fill
missing fields. -/
theorem derive_context_never_scans_games :
    derive_context_from_team envNoCtx 429523 2025 =
      ((.null, .null, .null, .null), [⟨BASE_URL ++ "teams/429523", []⟩]) ∧
    safe_get (envNoCtx.fetch (api_get_url "games") [])
        ["entries"] .null ≠ .null := by
  refine ⟨rfl, ?_⟩
  intro h
  exact JVal.noConfusion h

/-- C7 (amended): `derive_context_from_team` resolves the context by direct
extraction from the team-metadata endpoint only: it issues exactly that one
request, each returned field is the direct `safe_get` extraction from the
metadata, and a field the metadata does not carry stays `None`; there is no
games-page fallback scan. -/
theorem derive_context_direct_extraction_only (env : Env) (team_id season : Int) :
    (derive_context_from_team env team_id season).2 =
      [⟨api_get_url ("teams/" ++ toString team_id), []⟩] ∧
    (derive_context_from_team env team_id season).1 =
      (safe_get (teamMetaOf env team_id) ["league", "id"] .null,
        safe_get (teamMetaOf env team_id) ["game_class", "id"] .null,
        safe_get (teamMetaOf env team_id) ["group", "name"] .null,
        safe_get (teamMetaOf env team_id) ["name"] .null) ∧
    (manualIndex (teamMetaOf env team_id) ["league"] = none →
      (derive_context_from_team env team_id season).1.1 = .null) := by
  refine ⟨rfl, rfl, fun h => ?_⟩
  show safe_get (teamMetaOf env team_id) ["league", "id"] .null = .null
  cases hm : teamMetaOf env team_id with
  | obj fields =>
    rw [hm] at h
    simp only [manualIndex] at h
    cases hl : fields.lookup "league" with
    | none => rw [safe_get, hl]
    | some v =>
      rw [hl] at h
      simp only [manualIndex] at h
      cases h
  | null => rfl
  | bool b => rfl
  | num n => rfl
  | str s => rfl
  | arr l => rfl

/-- C7 witness: on an environment answering `{}` for everything, the league
is missing from the metadata and the amended theorem returns `None` for
it. -/
theorem derive_context_direct_extraction_only_witness :
    manualIndex (teamMetaOf ⟨fun _ _ => .obj []⟩ 1) ["league"] = none ∧
    (derive_context_from_team ⟨fun _ _ => .obj []⟩ 1 2025).1.1 = .null :=
  ⟨rfl, (derive_context_direct_extraction_only ⟨fun _ _ => .obj []⟩ 1 2025).2.2 rfl⟩

-- ---------------------------------------------------------------------------
-- C6: there is no club-mode retry
-- ---------------------------------------------------------------------------

/-- Every `mode` parameter of a request is `team` or `list`. -/
def paramsModeOk (ps : List (String × JVal)) : Bool :=
  ps.all fun p => (p.1 != "mode") ||
    (JVal.scalarEq p.2 (.str "team") || JVal.scalarEq p.2 (.str "list"))

/-- A request whose `mode` parameter (if any) is `team` or `list`. -/
def reqModeOk (r : Request) : Bool := paramsModeOk r.params

theorem gg_variants_modeOk (team_id season per_page : Int) (view : String) :
    ∀ ps ∈ gg_variants team_id season per_page view, paramsModeOk ps = true := by
  intro ps hps
  simp only [gg_variants, List.mem_cons, List.not_mem_nil, or_false] at hps
  rcases hps with rfl | rfl | rfl | rfl | rfl <;> rfl

theorem paramsModeOk_setParam_round (ps : List (String × JVal)) (v : JVal)
    (h : paramsModeOk ps = true) : paramsModeOk (setParam ps "round" v) = true := by
  rw [setParam]
  split
  · rw [paramsModeOk, List.all_eq_true] at h ⊢
    intro p hp
    obtain ⟨q, hq, rfl⟩ := List.mem_map.1 hp
    by_cases hq1 : q.1 = "round"
    · rw [if_pos hq1]
      rfl
    · rw [if_neg hq1]
      exact h q hq
  · rw [paramsModeOk, List.all_eq_true] at h ⊢
    intro p hp
    rcases List.mem_append.1 hp with hp | hp
    · exact h p hp
    · rw [List.mem_singleton.1 hp]
      rfl

theorem ggtmLoop_reqs_modeOk (env : Env) (v0 : List (String × JVal)) :
    ∀ (l : List (List (String × JVal))) (reqs : List Request),
      (∀ r ∈ reqs, reqModeOk r = true) →
      (∀ ps ∈ l, paramsModeOk ps = true) →
      ∀ r ∈ (ggtmLoop env v0 reqs l).2, reqModeOk r = true := by
  intro l
  induction l with
  | nil =>
    intro reqs hr _ r hmem
    exact hr r hmem
  | cons ps rest ih =>
    intro reqs hr hl r hmem
    have hnew : ∀ r2 ∈ reqs ++ [(⟨api_get_url "games", ps⟩ : Request)],
        reqModeOk r2 = true := by
      intro r2 hm2
      rcases List.mem_append.1 hm2 with h2 | h2
      · exact hr r2 h2
      · rw [List.mem_singleton.1 h2]
        exact hl ps (by simp)
    rw [ggtmLoop] at hmem
    try dsimp only at hmem
    split at hmem
    · exact hnew r hmem
    · split at hmem
      · exact hnew r hmem
      · exact ih _ hnew (fun q hq => hl q (by simp [hq])) r hmem

theorem listIterLoop_reqs_modeOk (env : Env) (url : String) (params : List (String × JVal))
    (hp : paramsModeOk params = true) :
    ∀ (fuel : Nat) (prev : Option Int) (seen : List Int) (all_ids : List JVal)
      (rows_map : List (JVal × RowInfo)) (walked : Nat) (reqs : List Request),
      (∀ r ∈ reqs, reqModeOk r = true) →
      ∀ r ∈ (listIterLoop env url params fuel prev seen all_ids rows_map walked reqs).reqs,
        reqModeOk r = true := by
  intro fuel
  induction fuel with
  | zero =>
    intro prev seen all_ids rows_map walked reqs hr r hm
    cases prev <;> exact hr r hm
  | succ f ih =>
    intro prev seen all_ids rows_map walked reqs hr r hm
    cases prev with
    | none => exact hr r hm
    | some rd =>
      rw [listIterLoop] at hm
      by_cases hrd : rd = 0
      · rw [if_pos hrd] at hm
        exact hr r hm
      · rw [if_neg hrd] at hm
        by_cases hc : seen.contains rd = true
        · rw [if_pos hc] at hm
          exact hr r hm
        · rw [if_neg hc] at hm
          try dsimp only at hm
          have hnew : ∀ r2 ∈ reqs ++ [(⟨url, setParam params "round" (.num rd)⟩ : Request)],
              reqModeOk r2 = true := by
            intro r2 hm2
            rcases List.mem_append.1 hm2 with h2 | h2
            · exact hr r2 h2
            · rw [List.mem_singleton.1 h2]
              exact paramsModeOk_setParam_round params _ hp
          split at hm
          · exact hnew r hm
          · split at hm
            · exact hnew r hm
            · exact ih _ _ _ _ _ _ hnew r hm

theorem list_mode_iterate_reqs_modeOk (env : Env) (league game_class : String)
    (season : Int) (group : JVal) (max_rounds : Nat) :
    ∀ r ∈ (list_mode_iterate env league game_class season group max_rounds).reqs,
      reqModeOk r = true := by
  intro r hm
  rw [list_mode_iterate] at hm
  by_cases hg : group.truthy = true
  · rw [if_pos hg] at hm
    have hp : paramsModeOk
        ([("mode", JVal.str "list"), ("season", JVal.num season),
          ("league", JVal.str league), ("game_class", JVal.str game_class),
          ("view", JVal.str "full")] ++ [("group", group)]) = true := rfl
    have hone : ∀ r2 ∈ [(⟨BASE_URL ++ "games",
        [("mode", JVal.str "list"), ("season", JVal.num season),
          ("league", JVal.str league), ("game_class", JVal.str game_class),
          ("view", JVal.str "full")] ++ [("group", group)]⟩ : Request)],
        reqModeOk r2 = true := by
      intro r2 hm2
      rw [List.mem_singleton.1 hm2]
      exact hp
    split at hm
    · exact hone r hm
    · split at hm
      · exact hone r hm
      · exact listIterLoop_reqs_modeOk env _ _ hp _ _ _ _ _ _ _ hone r hm
  · rw [if_neg hg] at hm
    have hp : paramsModeOk
        [("mode", JVal.str "list"), ("season", JVal.num season),
          ("league", JVal.str league), ("game_class", JVal.str game_class),
          ("view", JVal.str "full")] = true := rfl
    have hone : ∀ r2 ∈ [(⟨BASE_URL ++ "games",
        [("mode", JVal.str "list"), ("season", JVal.num season),
          ("league", JVal.str league), ("game_class", JVal.str game_class),
          ("view", JVal.str "full")]⟩ : Request)],
        reqModeOk r2 = true := by
      intro r2 hm2
      rw [List.mem_singleton.1 hm2]
      exact hp
    split at hm
    · exact hone r hm
    · split at hm
      · exact hone r hm
      · exact listIterLoop_reqs_modeOk env _ _ hp _ _ _ _ _ _ _ hone r hm

/-- C6 (amended): `find_upcoming_for_team` contains no club-mode retry at
all: for every environment, team and season, every request it issues
carries either `mode=team` or `mode=list` (or no `mode` parameter); when
the primary team-mode query is empty it proceeds directly to the list-mode
fallback. -/
theorem find_upcoming_issues_no_club_mode (env : Env) (team_id : Int)
    (team_name : String) (season : Int) :
    ((find_upcoming_for_team env team_id team_name season).2.all reqModeOk) = true := by
  rw [List.all_eq_true]
  intro r hm
  have hprim : ∀ r2 ∈ (get_games_team_mode env team_id season 30 "short").2,
      reqModeOk r2 = true := by
    intro r2 hm2
    exact ggtmLoop_reqs_modeOk env _ _ [] (by simp)
      (gg_variants_modeOk team_id season 30 "short") r2 hm2
  have hctx : ∀ r2 ∈ (derive_context_from_team env team_id season).2,
      reqModeOk r2 = true := by
    intro r2 hm2
    dsimp only [derive_context_from_team, get_team, api_get] at hm2
    rw [List.mem_singleton.1 hm2]
    rfl
  have happ : ∀ (l1 l2 : List Request), (∀ x ∈ l1, reqModeOk x = true) →
      (∀ x ∈ l2, reqModeOk x = true) → ∀ x ∈ l1 ++ l2, reqModeOk x = true := by
    intro l1 l2 h1 h2 x hx
    rcases List.mem_append.1 hx with h3 | h3
    · exact h1 x h3
    · exact h2 x h3
  rw [find_upcoming_for_team] at hm
  try dsimp only at hm
  repeat' split at hm
  all_goals first
    | exact hprim r hm
    | exact happ _ _ (happ _ _ hprim hctx)
        (fun x hx => list_mode_iterate_reqs_modeOk env _ _ season _ 60 x hx) r hm
    | exact happ _ _ hprim hctx r hm

/-- An environment whose team metadata carries a club id while the games
endpoint always answers with zero entries. -/
def envClub : Env :=
  ⟨fun url _ =>
    if url = BASE_URL ++ "teams/429523" then
      .obj [("name", .str "Tigers Langnau"), ("club", .obj [("id", .num 777)])]
    else .obj [("entries", .arr [])]⟩

/-- C6 counterexample: for a team whose club identifier is known (the
metadata carries `club.id = 777`) and whose primary team-mode query returns
zero entries on every variant, the run of `find_upcoming_for_team` issues
no request at all with `mode=club` and none substituting the club id for
the team id: the code never retries in club mode. -/
theorem find_upcoming_never_uses_club_id :
    safe_get (teamMetaOf envClub 429523) ["club", "id"] .null = .num 777 ∧
    ((gg_variants 429523 2025 30 "short").all
      (fun ps => !(dictGet (envClub.fetch (api_get_url "games") ps)
        "entries" .null).truthy)) = true ∧
    ((find_upcoming_for_team envClub 429523 "Tigers Langnau" 2025).2.all
      (fun r => r.params.all
        (fun p => !(JVal.scalarEq p.2 (.str "club")) &&
          !(p.1 == "team_id" && JVal.scalarEq p.2 (.num 777))))) = true :=
  ⟨rfl, rfl, rfl⟩

-- ---------------------------------------------------------------------------
-- C1: the list-mode fallback filter
-- ---------------------------------------------------------------------------

/-- A games response that is a mapping with no truthy `entries` (zero
entries, or an error `{}`). -/
def JVal.isObjVal : JVal → Bool
  | .obj _ => true
  | _ => false

def noEntriesResp (j : JVal) : Bool :=
  j.isObjVal && !(dictGet j "entries" .null).truthy

theorem ggtmLoop_empty (env : Env) (v0 : List (String × JVal)) :
    ∀ (l : List (List (String × JVal))) (reqs : List Request),
      (∀ ps ∈ l, noEntriesResp (env.fetch (api_get_url "games") ps) = true) →
      ggtmLoop env v0 reqs l =
        (.ok (.obj [("entries", .arr []), ("_used_params", .obj v0)]),
          reqs ++ l.map (fun ps => ⟨api_get_url "games", ps⟩)) := by
  intro l
  induction l with
  | nil =>
    intro reqs _
    simp [ggtmLoop]
  | cons ps rest ih =>
    intro reqs h
    have hps := h ps (by simp)
    rw [noEntriesResp, Bool.and_eq_true] at hps
    obtain ⟨h1, h2⟩ := hps
    rw [ggtmLoop]
    dsimp only [api_get]
    cases hf : env.fetch (api_get_url "games") ps with
    | obj fields =>
      rw [hf] at h2
      simp only [pyGet]
      have hent : ((fields.lookup "entries").getD JVal.null).truthy = false := by
        simpa [dictGet] using h2
      rw [if_neg (by rw [hent]; simp)]
      rw [ih _ (fun q hq => h q (by simp [hq]))]
      simp
    | null => rw [hf] at h1; simp [JVal.isObjVal] at h1
    | bool b => rw [hf] at h1; simp [JVal.isObjVal] at h1
    | num n => rw [hf] at h1; simp [JVal.isObjVal] at h1
    | str s => rw [hf] at h1; simp [JVal.isObjVal] at h1
    | arr el => rw [hf] at h1; simp [JVal.isObjVal] at h1

theorem get_games_team_mode_empty (env : Env) (team_id season per_page : Int)
    (view : String)
    (h : ∀ ps ∈ gg_variants team_id season per_page view,
      noEntriesResp (env.fetch (api_get_url "games") ps) = true) :
    get_games_team_mode env team_id season per_page view =
      (.ok (.obj [("entries", .arr []),
          ("_used_params", .obj ((gg_variants team_id season per_page view).headD []))]),
        (gg_variants team_id season per_page view).map
          (fun ps => ⟨api_get_url "games", ps⟩)) := by
  rw [get_games_team_mode, ggtmLoop_empty env _ _ [] h]
  rfl

/-- A value `str.lower` can process after `or ""`: falsy, or a string. -/
def lowerOk (v : JVal) : Bool := !v.truthy || v.isStrVal

/-- Lower-casing of a value known to be a string (else `""`). -/
def lowerStr : JVal → String
  | .str s => strLower s
  | _ => ""

/-- Source `rows_map.get(gid, {}).get("home")`. -/
def homeRawOf (m : List (JVal × RowInfo)) (g : JVal) : JVal :=
  match rowsLookup m g with
  | some r => r.home
  | none => .null

/-- Source `rows_map.get(gid, {}).get("away")`. -/
def awayRawOf (m : List (JVal × RowInfo)) (g : JVal) : JVal :=
  match rowsLookup m g with
  | some r => r.away
  | none => .null

theorem pyLower_pyOr_ok (v : JVal) (h : lowerOk v = true) :
    pyLower (pyOr v (.str "")) = .ok (lowerStr (pyOr v (.str ""))) := by
  cases v with
  | str s =>
    rw [pyOr]
    split <;> rfl
  | null => rfl
  | bool b =>
    rw [lowerOk] at h
    simp only [JVal.truthy, JVal.isStrVal, Bool.or_false, Bool.not_eq_true'] at h
    subst h
    rfl
  | num n =>
    rw [lowerOk] at h
    simp only [JVal.truthy, JVal.isStrVal, Bool.or_false, Bool.not_eq_true',
      bne_eq_false_iff_eq] at h
    subst h
    rfl
  | arr l =>
    rw [lowerOk] at h
    simp only [JVal.truthy, JVal.isStrVal, Bool.or_false, Bool.not_eq_true'] at h
    have hl : l = [] := by
      cases l with
      | nil => rfl
      | cons a as => simp at h
    subst hl
    rfl
  | obj f =>
    rw [lowerOk] at h
    simp only [JVal.truthy, JVal.isStrVal, Bool.or_false, Bool.not_eq_true'] at h
    have hf : f = [] := by
      cases f with
      | nil => rfl
      | cons a as => simp at h
    subst hf
    rfl

/-- The specification-side filter of the list-mode fallback: keep a game id
exactly when the lower-cased team name occurs in the lower-cased home or
away field of its row, and map it to the `GameRow` the code builds. -/
def listRowKeep (tn : String) (m : List (JVal × RowInfo)) (gid : JVal) : Option GameRow :=
  if strContains (lowerStr (pyOr (homeRawOf m gid) (.str ""))) (strLower tn) ||
      strContains (lowerStr (pyOr (awayRawOf m gid) (.str ""))) (strLower tn) then
    some { game_id := gid,
           date_time := (match rowsLookup m gid with
             | some r => r.date_time
             | none => .str ""),
           home := (match rowsLookup m gid with
             | some r => r.home
             | none => .str ""),
           away := (match rowsLookup m gid with
             | some r => r.away
             | none => .str ""),
           result := (match rowsLookup m gid with
             | some r => r.result
             | none => .str ""),
           status := .str "" }
  else none

theorem buildListRows_spec (tn : String) (htn : tn ≠ "") (m : List (JVal × RowInfo)) :
    ∀ ids : List JVal,
      (∀ g ∈ ids, lowerOk (homeRawOf m g) = true ∧ lowerOk (awayRawOf m g) = true) →
      buildListRows (.str tn) m ids = .ok (ids.filterMap (listRowKeep tn m)) := by
  intro ids
  induction ids with
  | nil => intro _; rfl
  | cons g rest ih =>
    intro h
    obtain ⟨hh, ha⟩ := h g (by simp)
    have e1 := pyLower_pyOr_ok _ hh
    have e2 := pyLower_pyOr_ok _ ha
    rw [homeRawOf] at e1
    rw [awayRawOf] at e2
    rw [buildListRows]
    try dsimp only
    rw [e1]
    try dsimp only
    rw [e2]
    try dsimp only
    have hn : (JVal.str tn).truthy = true := by
      simp [JVal.truthy]
      exact htn
    rw [if_pos hn]
    dsimp only [pyLower]
    rw [ih (fun g2 hg2 => h g2 (by simp [hg2]))]
    try dsimp only
    rw [List.filterMap_cons]
    simp only [listRowKeep, homeRawOf, awayRawOf]
    split <;> rfl

/-- C1 (amended): when the primary team-mode query returns zero entries on
every parameter variant, the team's display name is non-empty, and league
and game-class identifiers are known from the team metadata,
`find_upcoming_for_team` falls back to list mode and returns exactly those
list-mode ids whose row's home or away field case-insensitively contains
the display name, in order, each mapped to the code's `GameRow` shape —
truncated to the first 8 such rows (rows not containing the name are
excluded). -/
theorem find_upcoming_list_fallback (env : Env) (team_id : Int) (team_name : String)
    (season : Int) (ids : List JVal) (rows_map : List (JVal × RowInfo))
    (hname : team_name ≠ "")
    (hprim : ∀ ps ∈ gg_variants team_id season 30 "short",
      noEntriesResp (env.fetch (api_get_url "games") ps) = true)
    (hleague : (safe_get (teamMetaOf env team_id) ["league", "id"] .null).truthy = true)
    (hgclass : (safe_get (teamMetaOf env team_id) ["game_class", "id"] .null).truthy = true)
    (hiter : (list_mode_iterate env
        (pyStr (safe_get (teamMetaOf env team_id) ["league", "id"] .null))
        (pyStr (safe_get (teamMetaOf env team_id) ["game_class", "id"] .null)) season
        (safe_get (teamMetaOf env team_id) ["group", "name"] .null) 60).res =
      .ok (ids, rows_map))
    (hrows : ∀ g ∈ ids,
      lowerOk (homeRawOf rows_map g) = true ∧ lowerOk (awayRawOf rows_map g) = true) :
    (find_upcoming_for_team env team_id team_name season).1 =
      .ok ((ids.filterMap (listRowKeep team_name rows_map)).take 8) := by
  rw [find_upcoming_for_team]
  rw [get_games_team_mode_empty env team_id season 30 "short" hprim]
  try dsimp only
  have hent : (dictGet (JVal.obj [("entries", JVal.arr []),
      ("_used_params", JVal.obj ((gg_variants team_id season 30 "short").headD []))])
        "entries" JVal.null).truthy = false := rfl
  rw [if_neg (by rw [hent]; simp)]
  have hd : derive_context_from_team env team_id season =
      ((safe_get (teamMetaOf env team_id) ["league", "id"] .null,
        safe_get (teamMetaOf env team_id) ["game_class", "id"] .null,
        safe_get (teamMetaOf env team_id) ["group", "name"] .null,
        safe_get (teamMetaOf env team_id) ["name"] .null),
        [⟨api_get_url ("teams/" ++ toString team_id), []⟩]) := rfl
  rw [hd]
  try dsimp only
  rw [if_pos (by rw [hleague, hgclass]; rfl)]
  rw [hiter]
  try dsimp only
  rw [if_pos hname]
  rw [buildListRows_spec team_name hname rows_map ids hrows]

/-- One uniform textual cell of a list-mode row. -/
def mkListCell (t : String) : JVal := .obj [("text", .arr [.str t])]

/-- A list-mode row for game id `i` whose home field is the team name. -/
def mkListRow (i : Int) : JVal :=
  .obj [("cells", .arr [
    .obj [("text", .arr [.str "01.09.2025 18:00"]),
          ("link", .obj [("page", .str "game_detail"), ("ids", .arr [.num i])])],
    mkListCell "Halle", mkListCell "Tigers Langnau", mkListCell "c3",
    mkListCell "c4", mkListCell "c5", mkListCell "Gegner", mkListCell "3:2"])]

/-- A list-mode page carrying nine rows that all match the team name. -/
def listPayload9 : JVal :=
  .obj [("data", .obj [("regions", .arr [.obj [("rows",
    .arr ((List.range 9).map (fun i => mkListRow (Int.ofNat i + 1))))]])])]

/-- An environment where the primary team-mode query is empty, the team
metadata resolves league 1 and game class 11, and the list-mode page has
nine matching rows. -/
def env9 : Env :=
  ⟨fun url params =>
    if url = BASE_URL ++ "teams/429523" then
      .obj [("name", .str "Tigers Langnau"),
        ("league", .obj [("id", .num 1)]), ("game_class", .obj [("id", .num 11)])]
    else
      match params.lookup "mode" with
      | some (.str "list") => listPayload9
      | _ => .obj [("entries", .arr [])]⟩

/-- C1 counterexample: with nine list-mode rows matching the team name, the
function returns only 8 rows — the `[:8]` truncation — so it does not
return exactly the matching rows as the claim states. -/
theorem find_upcoming_drops_ninth_matching_row :
    ((find_upcoming_for_team env9 429523 "Tigers Langnau" 2025).1.map List.length) =
      .ok 8 ∧
    (match (list_mode_iterate env9 "1" "11" 2025 .null 60).res with
      | .ok (ids, rows_map) =>
        (ids.filterMap (listRowKeep "Tigers Langnau" rows_map)).length
      | .error _ => 0) = 9 :=
  ⟨rfl, rfl⟩

/-- The nine game ids of `listPayload9`. -/
def ids9 : List JVal := (List.range 9).map (fun i => .num (Int.ofNat i + 1))

/-- The rows dictionary `list_mode_iterate` builds from `listPayload9`. -/
def rows9 : List (JVal × RowInfo) :=
  (List.range 9).map (fun i => (.num (Int.ofNat i + 1),
    ⟨.str "01.09.2025 18:00", .str "Halle", .str "Tigers Langnau",
      .str "Gegner", .str "3:2"⟩))

/-- C1 witness: the hypotheses of the fallback theorem hold in `env9` and
the theorem applies, returning the first 8 of the 9 matching rows. -/
theorem find_upcoming_list_fallback_witness :
    ("Tigers Langnau" ≠ "") ∧
    (∀ ps ∈ gg_variants 429523 2025 30 "short",
      noEntriesResp (env9.fetch (api_get_url "games") ps) = true) ∧
    (find_upcoming_for_team env9 429523 "Tigers Langnau" 2025).1 =
      .ok ((ids9.filterMap (listRowKeep "Tigers Langnau" rows9)).take 8) :=
  ⟨by decide, by decide,
    find_upcoming_list_fallback env9 429523 "Tigers Langnau" 2025 ids9 rows9
      (by decide) (by decide) (by decide) (by decide) rfl (by decide)⟩

end FloorballDashboard
